import Mathlib

/-!
# Verification of the lona interactive-session supervisor

Shallow embedding of `src/tools/lona_dev_repl/process_manager.py` and
`src/tools/lona_dev_repl/server.py`.

Modelling conventions:
* Python strings are `List Char`; `str.replace`, `str.split`, `str.strip`,
  `str.lower` and the `re` operations used by the source are embedded as
  executable Lean functions with matching scan semantics.
* Wall-clock time is discrete: one iteration of the sleep-poll loop in
  `_wait_for_prompt` is one tick, so a timeout of `t` seconds is `t` ticks
  of fuel.  `time.time()` values are `Int`.
* The environment of one operation (pid and descriptor handed out by the
  OS, `poll()` answers, bytes available on the pty at each poll) is a
  record of functions (`OpEnv`), making every operation a pure function
  from state and environment to result, updated state and a trace of
  externally visible effects (spawn / write / signal / close).
* `asyncio.Lock` acquisition order is modelled separately, as the sequence
  of gate actions an operation performs (see the `GAct` trace development
  near the end); the state-passing functions themselves are sequential.
-/

namespace LonaRepl

/-! ## Output sanitizer (`clean_output`, process_manager.py lines 34-41) -/

/-- `[0-9;]*` parameter bytes of a CSI sequence. -/
def skipParams (l : List Char) : List Char :=
  l.dropWhile (fun c => c.isDigit || c == ';')

/-- Match `\x1b\[[0-9;]*[a-zA-Z]` after the initial ESC has been consumed:
returns the remainder of the input after the match, or `none`. -/
def matchCSI : List Char → Option (List Char)
  | '[' :: rest =>
    match skipParams rest with
    | c :: rest' => if c.isAlpha then some rest' else none
    | [] => none
  | _ => none

/-- Scan of the lazy `.*?\x07` tail of `\x1b\].*?\x07`: shortest match up to
the first BEL, failing if a newline (which `.` does not match) comes first. -/
def oscScan : List Char → Option (List Char)
  | [] => none
  | c :: cs => if c = '\x07' then some cs else if c = '\n' then none else oscScan cs

/-- Match `\x1b\].*?\x07` after the initial ESC has been consumed. -/
def matchOSC : List Char → Option (List Char)
  | ']' :: rest => oscScan rest
  | _ => none

/-- Match `\x1b[()][AB012]` after the initial ESC has been consumed. -/
def matchCharset : List Char → Option (List Char)
  | '(' :: c :: cs => if c ∈ ['A', 'B', '0', '1', '2'] then some cs else none
  | ')' :: c :: cs => if c ∈ ['A', 'B', '0', '1', '2'] then some cs else none
  | _ => none

/-- Leftmost match of `ANSI_ESCAPE` at the head of the input, trying the
three alternatives in the order they appear in the pattern
`\x1b\[[0-9;]*[a-zA-Z]|\x1b\].*?\x07|\x1b[()][AB012]`. -/
def matchAnsi : List Char → Option (List Char)
  | '\x1b' :: rest =>
    match matchCSI rest with
    | some r => some r
    | none =>
      match matchOSC rest with
      | some r => some r
      | none => matchCharset rest
  | _ => none

/-- `ANSI_ESCAPE.sub("", text)`: left-to-right scan deleting each match and
continuing after it.  Fuel-indexed so that the recursion is structural; a
match always consumes at least one character, so `l.length` fuel suffices. -/
def ansiSubF : Nat → List Char → List Char
  | _, [] => []
  | 0, l => l
  | fuel + 1, c :: cs =>
    match matchAnsi (c :: cs) with
    | some rest => ansiSubF fuel rest
    | none => c :: ansiSubF fuel cs

/-- `ANSI_ESCAPE.sub("", text)`. -/
def ansiSub (l : List Char) : List Char := ansiSubF l.length l

/-- `text.replace("\r\n", "\n")`: single left-to-right pass over
non-overlapping occurrences. -/
def replaceCRLF : List Char → List Char
  | [] => []
  | [c] => [c]
  | c1 :: c2 :: cs =>
    if c1 = '\r' ∧ c2 = '\n' then '\n' :: replaceCRLF cs
    else c1 :: replaceCRLF (c2 :: cs)

/-- `text.replace("\r", "\n")`: the pattern is a single character, so the
left-to-right replacement is character-wise. -/
def replaceCR (l : List Char) : List Char :=
  l.map (fun c => if c = '\r' then '\n' else c)

/-- `clean_output` (process_manager.py lines 37-41): strip ANSI escapes,
then normalize `\r\n` and bare `\r` to `\n`. -/
def cleanList (l : List Char) : List Char :=
  replaceCR (replaceCRLF (ansiSub l))

/-! ## Prompt detection and evaluation-result extraction -/

/-- `PROMPT_PATTERN = re.compile(r"lona> $")` applied with `re.search`:
without MULTILINE, `$` matches at the very end of the string or just
before a single trailing newline. -/
def promptSeen (b : List Char) : Bool :=
  List.isSuffixOf "lona> ".data b || List.isSuffixOf ("lona> ".data ++ ['\n']) b

/-- The whitespace class stripped by Python `str.strip()` (ASCII part). -/
def isPySpace (c : Char) : Bool :=
  c = ' ' || c = '\t' || c = '\n' || c = '\r' || c = '\x0b' || c = '\x0c'

/-- Python `str.strip()`. -/
def pyStrip (l : List Char) : List Char :=
  ((l.dropWhile isPySpace).reverse.dropWhile isPySpace).reverse

/-- `output.split("\n")` (Python `str.split` with explicit separator:
`"".split("\n") = [""]`, trailing separators produce empty fields). -/
def splitNL : List Char → List (List Char)
  | [] => [[]]
  | c :: cs =>
    if c = '\n' then [] :: splitNL cs
    else
      match splitNL cs with
      | h :: t => (c :: h) :: t
      | [] => [[c]]

/-- `"\n".join(lines)`. -/
def joinNL (ls : List (List Char)) : List Char := List.intercalate ['\n'] ls

/-- The filter condition of `ProcessManager.eval` (lines 176-179): a line is
dropped when its stripped form is exactly `"lona>"` or starts with
`"lona> "` (a prompt line, including the echoed input on it). -/
def isPromptLine (l : List Char) : Bool :=
  pyStrip l == "lona>".data || List.isPrefixOf "lona> ".data (pyStrip l)

/-- The result-extraction step of `ProcessManager.eval` (lines 170-182):
split the cleaned output into lines, drop prompt lines, join the rest and
strip surrounding whitespace. -/
def evalExtract (out : List Char) : List Char :=
  pyStrip (joinNL ((splitNL out).filter (fun l => !(isPromptLine l))))

/-! ## Process state, environment and effects -/

/-- Timeout and interval constants (process_manager.py lines 27-31),
in ticks of the sleep-poll loop / seconds. -/
def BOOT_TIMEOUT : Nat := 120

/-- `EVAL_TIMEOUT = 30`. -/
def EVAL_TIMEOUT : Nat := 30

/-- `IDLE_TIMEOUT = 60` (seconds, compared against an `Int` difference). -/
def IDLE_TIMEOUT : Int := 60

/-- `IDLE_CHECK_INTERVAL = 10`. -/
def IDLE_CHECK_INTERVAL : Nat := 10

/-- `ProcessState` (process_manager.py lines 54-63).  The `asyncio.Lock`
field is not part of the data model here; gate ordering is modelled by the
`GAct` traces below.  `process` holds the pid of the launched child,
`master_fd` the controlling pty descriptor. -/
structure ProcessState where
  process : Option Nat := none
  master_fd : Option Nat := none
  start_time : Option Int := none
  last_activity : Int := 0
  output_buffer : List Char := []
deriving DecidableEq, Repr

/-- A freshly constructed `ProcessState()`: all handles `None`,
`last_activity = time.time()` at creation. -/
def ProcessState.init (now : Int) : ProcessState :=
  { last_activity := now }

/-- Externally visible side effects of an operation, in order. -/
inductive Effect where
  | spawn (pid : Nat)
  | wrote (fd : Nat) (data : List Char)
  | signalled (pid sig : Nat)
  | closedFd (fd : Nat)
deriving DecidableEq, Repr

/-- Errors raised inside the manager: `RuntimeError("Process died while
waiting for prompt")` and `TimeoutError(...)`. -/
inductive WErr where
  | processDied
  | timeout
deriving DecidableEq, Repr

/-- Environment of one manager operation: `pid`/`fd` are the handles the OS
hands out on launch, `now` is `time.time()` at the operation, `aliveNow`
is the instantaneous `poll() is None` answer used by the already-running
check, `alive i` is the `poll() is None` answer at poll-loop iteration
`i`, and `chunks i` is the data `os.read` yields at iteration `i`
(`none` models `BlockingIOError`, no data yet). -/
structure OpEnv where
  pid : Nat := 1
  fd : Nat := 3
  now : Int := 0
  aliveNow : Bool := true
  alive : Nat → Bool := fun _ => true
  chunks : Nat → Option (List Char) := fun _ => none

/-- The registry `self._states : dict[str, ProcessState]` as an
association list in insertion order. -/
abbrev Registry := List (String × ProcessState)

/-- Replace the state stored under `arch` (Python mutates the shared
`ProcessState` object in place). -/
def updateReg (r : Registry) (arch : String) (s : ProcessState) : Registry :=
  List.map (fun p => if p.1 = arch then (p.1, s) else p) r

/-- `_get_state` (lines 78-82): get-or-create.  A missing key gets a fresh
Stopped state appended; note this mutates the registry. -/
def getState (now : Int) (r : Registry) (arch : String) : ProcessState × Registry :=
  match List.lookup arch r with
  | some s => (s, r)
  | none => (ProcessState.init now, r ++ [(arch, ProcessState.init now)])

/-! ## `_wait_for_prompt` (lines 131-153) -/

/-- Concatenation of the data the channel yields over `fuel` iterations
starting at iteration `i` (a `BlockingIOError` iteration contributes
nothing). -/
def joinChunks (chunks : Nat → Option (List Char)) : Nat → Nat → List Char
  | _, 0 => []
  | i, fuel + 1 => (chunks i).getD [] ++ joinChunks chunks (i + 1) fuel

/-- One sleep-poll loop of `_wait_for_prompt`, one tick of fuel per
iteration (the `while time.time() - start < timeout` guard).  Each
iteration first checks for child death, then reads, then checks for the
prompt; on a match the buffer is cleared and the cleaned accumulated
output returned; when the fuel is exhausted the loop falls through to
`raise TimeoutError`. -/
def waitForPromptAux (alive : Nat → Bool) (chunks : Nat → Option (List Char)) :
    Nat → Nat → ProcessState → Except WErr (List Char) × ProcessState
  | 0, _, s => (Except.error WErr.timeout, s)
  | fuel + 1, i, s =>
    if s.process = none ∨ alive i = false then (Except.error WErr.processDied, s)
    else
      let s1 :=
        match chunks i with
        | some ch => { s with output_buffer := s.output_buffer ++ ch }
        | none => s
      if promptSeen s1.output_buffer then
        (Except.ok (cleanList s1.output_buffer), { s1 with output_buffer := [] })
      else
        waitForPromptAux alive chunks fuel (i + 1) s1

/-! ## Lifecycle operations -/

/-- `_start_process` (lines 101-129): open a pty, spawn `make run-$ARCH`
in a new process group, record handles and timestamps, clear the buffer,
then wait for the first prompt with the boot timeout.  Every field of the
prior state is overwritten, so the prior state does not appear. -/
def startProcess (e : OpEnv) : Except WErr (List Char) × ProcessState × List Effect :=
  let s0 : ProcessState :=
    { process := some e.pid, master_fd := some e.fd, start_time := some e.now,
      last_activity := e.now, output_buffer := [] }
  let w := waitForPromptAux e.alive e.chunks BOOT_TIMEOUT 0 s0
  (w.1, w.2, [Effect.spawn e.pid])

/-- `ensure_running` (lines 84-99): under the session's gate, if the child
is present and `poll()` reports it alive, refresh `last_activity`;
otherwise launch a new child.  (The idle-monitor task creation is not part
of the state model.) -/
def ensureRunning (e : OpEnv) (r : Registry) (arch : String) :
    Except WErr Unit × Registry × List Effect :=
  let g := getState e.now r arch
  if g.1.process.isSome && e.aliveNow then
    (Except.ok (), updateReg g.2 arch { g.1 with last_activity := e.now }, [])
  else
    let b := startProcess e
    match b.1 with
    | Except.ok _ => (Except.ok (), updateReg g.2 arch b.2.1, b.2.2)
    | Except.error er => (Except.error er, updateReg g.2 arch b.2.1, b.2.2)

/-- `eval` (lines 155-182): ensure the child runs, then under the gate
refresh `last_activity`, write the code plus newline to the pty, wait for
the next prompt with the evaluation timeout, and extract the result.
`eE` is the environment of the ensure/boot phase, `eW` that of the
evaluation wait, `now2` is `time.time()` inside the critical section. -/
def evalOp (eE eW : OpEnv) (now2 : Int) (arch : String) (code : List Char)
    (r : Registry) : Except WErr (List Char) × Registry × List Effect :=
  match ensureRunning eE r arch with
  | (Except.error er, r1, effs) => (Except.error er, r1, effs)
  | (Except.ok _, r1, effs) =>
    let s := (List.lookup arch r1).getD (ProcessState.init now2)
    let s1 := { s with last_activity := now2 }
    let wEff := Effect.wrote (s1.master_fd.getD 0) (code ++ ['\n'])
    let w := waitForPromptAux eW.alive eW.chunks EVAL_TIMEOUT 0 s1
    match w.1 with
    | Except.ok out => (Except.ok (evalExtract out), updateReg r1 arch w.2, effs ++ [wEff])
    | Except.error er => (Except.error er, updateReg r1 arch w.2, effs ++ [wEff])

/-- `_kill_process` (lines 194-230): no-op when no child handle is held;
otherwise SIGTERM the process group (failures suppressed), poll up to ten
times for a graceful exit, escalate to SIGKILL if a final poll still shows
it alive, close the descriptor (failures suppressed) and clear every
running-state field.  `pollSeq i` is the `poll() is None` answer at the
`i`-th check; index 10 is the final check guarding the SIGKILL. -/
def killProcess (pollSeq : Nat → Bool) (s : ProcessState) :
    ProcessState × List Effect :=
  match s.process with
  | none => (s, [])
  | some pid =>
    let graceAlive := (List.range 10).all pollSeq && pollSeq 10
    let e2 : List Effect := if graceAlive then [Effect.signalled pid 9] else []
    let e3 : List Effect :=
      match s.master_fd with
      | some fd => [Effect.closedFd fd]
      | none => []
    ({ process := none, master_fd := none, start_time := none,
       last_activity := s.last_activity, output_buffer := [] },
     [Effect.signalled pid 15] ++ e2 ++ e3)

/-- `restart` (lines 184-192): kill under the gate, then `ensure_running`
(which acquires the gate again). -/
def restartOp (pollSeq : Nat → Bool) (e : OpEnv) (r : Registry) (arch : String) :
    Except WErr Unit × Registry × List Effect :=
  let g := getState e.now r arch
  let k := killProcess pollSeq g.1
  let r1 := updateReg g.2 arch k.1
  match ensureRunning e r1 arch with
  | (res, r2, effs) => (res, r2, k.2 ++ effs)

/-! ## Queries and the idle reaper -/

/-- `is_running` (lines 252-255): `process is not None and poll() is None`.
`pollNow pid` is the instantaneous `poll() is None` answer.  Calling
`_get_state` can extend the registry, which the second component records. -/
def isRunning (pollNow : Nat → Bool) (now : Int) (r : Registry) (arch : String) :
    Bool × Registry :=
  let g := getState now r arch
  (match g.1.process with
   | some pid => pollNow pid
   | none => false,
   g.2)

/-- `get_start_time` (lines 247-250). -/
def getStartTime (now : Int) (r : Registry) (arch : String) :
    Option Int × Registry :=
  let g := getState now r arch
  (g.1.start_time, g.2)

/-- One session's treatment in a reaper tick (`_idle_monitor`, lines
236-245): skip when no handle is held or the child has already exited;
otherwise kill exactly when `now - last_activity > IDLE_TIMEOUT`. -/
def reaperStep (now : Int) (aliveNow : Bool) (pollSeq : Nat → Bool)
    (s : ProcessState) : ProcessState × List Effect :=
  if s.process = none ∨ aliveNow = false then (s, [])
  else if now - s.last_activity > IDLE_TIMEOUT then killProcess pollSeq s
  else (s, [])

/-- One full sweep of `_idle_monitor` over `list(self._states.items())`.
`aliveOf` gives each key's instantaneous `poll() is None` answer. -/
def reaperTick (now : Int) (aliveOf : String → Bool) (pollSeq : Nat → Bool)
    (r : Registry) : Registry × List Effect :=
  (List.map (fun p => (p.1, (reaperStep now (aliveOf p.1) pollSeq p.2).1)) r,
   List.flatten (List.map (fun p => (reaperStep now (aliveOf p.1) pollSeq p.2).2) r))

/-! ## Server layer (server.py) -/

/-- `VALID_ARCHS = {"aarch64", "x86_64"}` (server.py line 16). -/
def VALID_ARCHS : List String := ["aarch64", "x86_64"]

/-- `arch.lower()`. -/
def pyLower (l : List Char) : List Char := l.map Char.toLower

/-- The normalization step of `_validate_arch` (line 64):
`arch.lower().strip()`. -/
def normalizeArch (arch : String) : String :=
  String.mk (pyStrip (pyLower arch.data))

/-- `_validate_arch` (lines 62-68): normalize, then reject any key outside
the fixed allowed set with a `ValueError` (error-message punctuation
abbreviated). -/
def validateArch (arch : String) : Except String String :=
  let a := normalizeArch arch
  if a ∈ VALID_ARCHS then Except.ok a
  else Except.error ("Invalid architecture " ++ a ++ ". Valid: aarch64, x86_64")

/-- The error result of the `eval` tool: only the `ValueError` from
`_validate_arch` escapes; timeouts and process deaths are caught and
rendered as text. -/
inductive SrvErr where
  | invalidKey (msg : String)
deriving DecidableEq, Repr

/-- Exception text interpolated by the `except` clauses of the tools. -/
def errText : WErr → String
  | WErr.timeout => "Timeout waiting for prompt"
  | WErr.processDied => "Process died while waiting for prompt"

/-- `_format_result` (lines 48-59); the `strftime` rendering of the start
timestamp is abstracted to `toString`. -/
def formatResult (a : String) (st : Option Int) (out : String) : String :=
  (match st with
   | some t => "[" ++ a ++ " | started " ++ toString t ++ "]"
   | none => "[" ++ a ++ " | not started]") ++ "\n\n" ++ out

/-- `get_start_time` as read by `_format_result` after an operation; the
entry exists at that point, so this is a plain lookup. -/
def startTimeOf (r : Registry) (a : String) : Option Int :=
  (List.lookup a r).bind (fun s => s.start_time)

/-- The `eval` MCP tool (server.py lines 71-95): validate the key first;
on an invalid key the `ValueError` propagates before any manager call, so
the registry is untouched and no effect is produced.  Otherwise delegate
to the manager and render both success and caught errors as text. -/
def serverEval (eE eW : OpEnv) (now2 : Int) (arch code : String) (r : Registry) :
    Except SrvErr String × Registry × List Effect :=
  match validateArch arch with
  | Except.error m => (Except.error (SrvErr.invalidKey m), r, [])
  | Except.ok a =>
    match evalOp eE eW now2 a code.data r with
    | (Except.ok res, r1, effs) =>
      (Except.ok (formatResult a (startTimeOf r1 a) (String.mk res)), r1, effs)
    | (Except.error er, r1, effs) =>
      (Except.ok (formatResult a (startTimeOf r1 a) ("Error: " ++ errText er)), r1, effs)

/-- The `restart` MCP tool (server.py lines 98-121). -/
def serverRestart (pollSeq : Nat → Bool) (e : OpEnv) (arch : String) (r : Registry) :
    Except SrvErr String × Registry × List Effect :=
  match validateArch arch with
  | Except.error m => (Except.error (SrvErr.invalidKey m), r, [])
  | Except.ok a =>
    match restartOp pollSeq e r a with
    | (Except.ok _, r1, effs) =>
      (Except.ok (formatResult a (startTimeOf r1 a)
        "QEMU restarted successfully. Ready for input."), r1, effs)
    | (Except.error er, r1, effs) =>
      (Except.ok (formatResult a (startTimeOf r1 a)
        ("Error during restart: " ++ errText er)), r1, effs)

/-! ## Gate-acquisition traces

`restart` holds the session's `asyncio.Lock` for the kill, releases it,
and `ensure_running` then acquires it again for the boot (lines 184-192:
the `async with state.lock` block closes before `ensure_running` is
awaited).  The following small trace semantics makes that scheduling
structure explicit: an operation is its sequence of gate and lifecycle
actions, two tasks are interleaved by a choice list, and a schedule is
valid when every `acquire` happens while the lock is free. -/

/-- Gate and lifecycle actions, abstracted from the bodies. -/
inductive GAct where
  | acquire
  | release
  | killAct
  | bootAct
deriving DecidableEq, Repr

/-- One scheduled action: which task performed it (`false` = the
restarting caller, `true` = the other caller). -/
abbrev Step := Bool × GAct

/-- The gate/lifecycle trace of `ProcessManager.restart` as written:
kill inside one `async with state.lock` block, then `ensure_running`
acquiring the lock a second time for the boot. -/
def restartTrace : List GAct :=
  [GAct.acquire, GAct.killAct, GAct.release,
   GAct.acquire, GAct.bootAct, GAct.release]

/-- Modelled from the spec: the spec describes `restart()` as `kill();
boot()` under ONE gate acquisition; this is that trace, for comparison. -/
def restartTraceSpec : List GAct :=
  [GAct.acquire, GAct.killAct, GAct.bootAct, GAct.release]

/-- The gate trace of another caller's `ensure_running` booting the same
session. -/
def otherTrace : List GAct :=
  [GAct.acquire, GAct.bootAct, GAct.release]

/-- Interleave two tasks' traces according to a choice list (`true` picks
the second task's next action); leftovers run to completion in task
order. -/
def weave : List Bool → List GAct → List GAct → List Step
  | [], xs, ys => xs.map (fun a => (false, a)) ++ ys.map (fun a => (true, a))
  | _ :: _, [], ys => ys.map (fun a => (true, a))
  | _ :: _, xs, [] => xs.map (fun a => (false, a))
  | b :: bs, x :: xs, y :: ys =>
    if b then (true, y) :: weave bs (x :: xs) ys
    else (false, x) :: weave bs xs (y :: ys)

/-- A schedule respects the gate when every `acquire` finds the lock free. -/
def lockOk : Bool → List Step → Bool
  | _, [] => true
  | locked, (_, GAct.acquire) :: t => !locked && lockOk true t
  | _, (_, GAct.release) :: t => lockOk false t
  | locked, (_, _) :: t => lockOk locked t

/-- Index of the first occurrence of a step in a schedule (length when
absent). -/
def idxOfStep : List Step → Step → Nat
  | [], _ => 0
  | s :: t, x => if s = x then 0 else idxOfStep t x + 1

/-- The other caller's boot lands strictly between the restarting
caller's kill and its boot. -/
def interleaved (m : List Step) : Prop :=
  idxOfStep m (false, GAct.killAct) < idxOfStep m (true, GAct.bootAct) ∧
  idxOfStep m (true, GAct.bootAct) < idxOfStep m (false, GAct.bootAct)

instance (m : List Step) : Decidable (interleaved m) := by
  unfold interleaved; infer_instance

/-! ## Sanitizer lemmas -/

lemma matchAnsi_eq_none {c : Char} {cs : List Char} (h : c ≠ '\x1b') :
    matchAnsi (c :: cs) = none := by
  unfold matchAnsi
  split
  · rename_i heq
    cases heq
    exact absurd rfl h
  · rfl

lemma ansiSubF_id {l : List Char} (h : '\x1b' ∉ l) :
    ∀ fuel, ansiSubF fuel l = l := by
  induction l with
  | nil => intro fuel; cases fuel <;> rfl
  | cons c cs ih =>
    intro fuel
    cases fuel with
    | zero => rfl
    | succ n =>
      have hc : c ≠ '\x1b' := fun hc => h (hc ▸ List.mem_cons_self c cs)
      have hcs : '\x1b' ∉ cs := fun hm => h (List.mem_cons_of_mem c hm)
      simp [ansiSubF, matchAnsi_eq_none hc, ih hcs]

lemma replaceCRLF_id {l : List Char} (h : '\r' ∉ l) : replaceCRLF l = l := by
  induction l using replaceCRLF.induct with
  | case1 => rfl
  | case2 c => rfl
  | case3 c1 c2 cs hcr ih =>
    exact absurd (hcr.1 ▸ List.mem_cons_self c1 (c2 :: cs)) h
  | case4 c1 c2 cs hcr ih =>
    have : '\r' ∉ c2 :: cs := fun hm => h (List.mem_cons_of_mem c1 hm)
    simp only [replaceCRLF, if_neg hcr, ih this]

lemma replaceCR_id {l : List Char} (h : '\r' ∉ l) : replaceCR l = l := by
  unfold replaceCR
  apply List.map_congr_left ?_ |>.trans (List.map_id l)
  intro c hc
  have : c ≠ '\r' := fun h1 => h (h1 ▸ hc)
  simp [this]

lemma replaceCR_no_cr (l : List Char) : '\r' ∉ replaceCR l := by
  intro h
  simp only [replaceCR, List.mem_map] at h
  obtain ⟨x, _, hx⟩ := h
  by_cases hxr : x = '\r' <;> simp [hxr] at hx

/-! ## Wait-loop lemmas -/

lemma wait_state_fields (alive : Nat → Bool) (chunks : Nat → Option (List Char)) :
    ∀ fuel i s,
      (waitForPromptAux alive chunks fuel i s).2.process = s.process ∧
      (waitForPromptAux alive chunks fuel i s).2.master_fd = s.master_fd ∧
      (waitForPromptAux alive chunks fuel i s).2.start_time = s.start_time ∧
      (waitForPromptAux alive chunks fuel i s).2.last_activity = s.last_activity := by
  intro fuel
  induction fuel with
  | zero => exact fun i s => ⟨rfl, rfl, rfl, rfl⟩
  | succ n ih =>
    intro i s
    simp only [waitForPromptAux]
    split
    · exact ⟨rfl, rfl, rfl, rfl⟩
    · cases hch : chunks i with
      | some ch =>
        simp only [hch]
        split
        · exact ⟨rfl, rfl, rfl, rfl⟩
        · exact ih (i + 1) _
      | none =>
        simp only [hch]
        split
        · exact ⟨rfl, rfl, rfl, rfl⟩
        · exact ih (i + 1) _

lemma wait_timeout_buffer (alive : Nat → Bool) (chunks : Nat → Option (List Char)) :
    ∀ fuel i s s',
      waitForPromptAux alive chunks fuel i s = (Except.error WErr.timeout, s') →
      s'.output_buffer = s.output_buffer ++ joinChunks chunks i fuel := by
  intro fuel
  induction fuel with
  | zero =>
    intro i s s' h
    simp only [waitForPromptAux] at h
    cases h
    simp [joinChunks]
  | succ n ih =>
    intro i s s' h
    simp only [waitForPromptAux] at h
    split at h
    · cases h
    · cases hch : chunks i with
      | some ch =>
        simp only [hch] at h
        split at h
        · cases h
        · have := ih (i + 1) _ _ h
          simp only [this]
          simp [joinChunks, hch]
      | none =>
        simp only [hch] at h
        split at h
        · cases h
        · have := ih (i + 1) _ _ h
          simp only [this]
          simp [joinChunks, hch]

lemma wait_ok_clears (alive : Nat → Bool) (chunks : Nat → Option (List Char)) :
    ∀ fuel i s out s',
      waitForPromptAux alive chunks fuel i s = (Except.ok out, s') →
      s'.output_buffer = [] := by
  intro fuel
  induction fuel with
  | zero => intro i s out s' h; cases h
  | succ n ih =>
    intro i s out s' h
    simp only [waitForPromptAux] at h
    split at h
    · cases h
    · cases hch : chunks i with
      | some ch =>
        simp only [hch] at h
        split at h
        · cases h; rfl
        · exact ih (i + 1) _ _ _ h
      | none =>
        simp only [hch] at h
        split at h
        · cases h; rfl
        · exact ih (i + 1) _ _ _ h

lemma wait_ok_accum (alive : Nat → Bool) (chunks : Nat → Option (List Char)) :
    ∀ fuel i s out s',
      waitForPromptAux alive chunks fuel i s = (Except.ok out, s') →
      ∃ j, out = cleanList (s.output_buffer ++ joinChunks chunks i j) ∧
        promptSeen (s.output_buffer ++ joinChunks chunks i j) = true := by
  intro fuel
  induction fuel with
  | zero => intro i s out s' h; cases h
  | succ n ih =>
    intro i s out s' h
    simp only [waitForPromptAux] at h
    split at h
    · cases h
    · cases hch : chunks i with
      | some ch =>
        simp only [hch] at h
        split at h
        · rename_i hps
          cases h
          refine ⟨1, ?_, ?_⟩
          · simp [joinChunks, hch]
          · simpa [joinChunks, hch] using hps
        · obtain ⟨j, hout, hps⟩ := ih (i + 1) _ _ _ h
          refine ⟨j + 1, ?_, ?_⟩
          · simpa [joinChunks, hch, List.append_assoc] using hout
          · simpa [joinChunks, hch, List.append_assoc] using hps
      | none =>
        simp only [hch] at h
        split at h
        · rename_i hps
          cases h
          refine ⟨0, ?_, ?_⟩
          · simp [joinChunks]
          · simpa [joinChunks] using hps
        · obtain ⟨j, hout, hps⟩ := ih (i + 1) _ _ _ h
          refine ⟨j + 1, ?_, ?_⟩
          · simpa [joinChunks, hch] using hout
          · simpa [joinChunks, hch] using hps

lemma wait_timeout_alive (alive : Nat → Bool) (chunks : Nat → Option (List Char)) :
    ∀ fuel i s s',
      waitForPromptAux alive chunks fuel i s = (Except.error WErr.timeout, s') →
      ∀ j, j < fuel → alive (i + j) = true := by
  intro fuel
  induction fuel with
  | zero => intro i s s' _ j hj; omega
  | succ n ih =>
    intro i s s' h j hj
    simp only [waitForPromptAux] at h
    split at h
    · cases h
    · rename_i hcond
      push_neg at hcond
      cases hch : chunks i with
      | some ch =>
        simp only [hch] at h
        split at h
        · cases h
        · cases j with
          | zero => simpa using hcond.2
          | succ m =>
            have := ih (i + 1) _ _ h m (by omega)
            simpa [Nat.add_assoc, Nat.add_comm 1 m] using this
      | none =>
        simp only [hch] at h
        split at h
        · cases h
        · cases j with
          | zero => simpa using hcond.2
          | succ m =>
            have := ih (i + 1) _ _ h m (by omega)
            simpa [Nat.add_assoc, Nat.add_comm 1 m] using this

/-- `C9`: the output sanitizer is pure, removes escapes, normalizes all
line endings to `\n` (so no carriage return survives), and leaves
escape-free, carriage-return-free input — in particular any run of blank
lines — completely intact. -/
theorem C9_clean_output_sanitizer :
    (∀ l, '\r' ∉ cleanList l) ∧
    (∀ l, '\x1b' ∉ l → '\r' ∉ l → cleanList l = l) ∧
    cleanList "\x1b[31mred\x1b[0m\r\nok\r".data = "red\nok\n".data := by
  refine ⟨fun l => replaceCR_no_cr _, fun l h1 h2 => ?_, by decide⟩
  unfold cleanList ansiSub
  rw [ansiSubF_id h1, replaceCRLF_id h2, replaceCR_id h2]

/-- Witness for `C9`: an input of three blank lines passes through the
sanitizer unchanged. -/
theorem C9_clean_output_sanitizer_witness :
    cleanList "\n\n\n".data = "\n\n\n".data :=
  C9_clean_output_sanitizer.2.1 "\n\n\n".data (by decide) (by decide)

/-! ## Registry lemmas -/

lemma killProcess_process_none (pollSeq : Nat → Bool) (s : ProcessState) :
    (killProcess pollSeq s).1.process = none := by
  cases hp : s.process <;> simp [killProcess, hp]

lemma lookup_reaperTick (now : Int) (aliveOf : String → Bool) (pollSeq : Nat → Bool)
    (r : Registry) (a : String) :
    List.lookup a (reaperTick now aliveOf pollSeq r).1
      = (List.lookup a r).map (fun s => (reaperStep now (aliveOf a) pollSeq s).1) := by
  induction r with
  | nil => rfl
  | cons p t ih =>
    obtain ⟨k, v⟩ := p
    by_cases hab : a = k
    · subst hab
      simp [reaperTick, List.lookup]
    · simp only [reaperTick, List.map, List.lookup]
      have hbe : (a == k) = false := by simp [hab]
      simp only [hbe]
      exact ih

/-! ## Scenario from the spec: prompt echo plus one result line -/

/-- A session that is Ready: child 1 on descriptor 3, booted at 0. -/
def scenState : ProcessState :=
  { process := some 1, master_fd := some 3, start_time := some 0,
    last_activity := 0, output_buffer := [] }

/-- Registry holding the Ready session under `"aarch64"`. -/
def scenReg0 : Registry := [("aarch64", scenState)]

/-- Ensure-phase environment: the child is alive, nothing to boot. -/
def scenEnvE : OpEnv := { now := 5 }

/-- Evaluation-phase environment: the pty yields the echoed input, the
result line and a fresh prompt in one chunk with CRLF endings. -/
def scenEnvW : OpEnv :=
  { now := 5,
    chunks := fun i => if i = 0 then some "lona> 2 + 2\r\n4\r\nlona> ".data else none }

/-- `C1`: a successful `evaluate` returns exactly the prompt-line filter
(drop every line whose stripped form is the bare prompt or starts with the
prompt, join, strip) applied to the cleaned accumulated output; on the
spec's scenario — echo `"lona> 2 + 2"`, result `"4"`, fresh prompt — the
returned text is exactly `"4"`, with no residual prompt text and no
echoed-input line. -/
theorem C1_eval_result_extraction :
    (∀ eE eW now2 arch code r res r' effs,
       evalOp eE eW now2 arch code r = (Except.ok res, r', effs) →
       ∃ buf0 j,
         promptSeen (buf0 ++ joinChunks eW.chunks 0 j) = true ∧
         res = evalExtract (cleanList (buf0 ++ joinChunks eW.chunks 0 j))) ∧
    evalOp scenEnvE scenEnvW 5 "aarch64" "2 + 2".data scenReg0
      = (Except.ok "4".data,
         [("aarch64", { scenState with last_activity := 5 })],
         [Effect.wrote 3 ("2 + 2".data ++ ['\n'])]) := by
  constructor
  · intro eE eW now2 arch code r res r' effs h
    unfold evalOp at h
    split at h
    · cases h
    · rename_i r1 effs1 heq
      simp only at h
      split at h
      · rename_i out hout
        set s1 := { (List.lookup arch r1).getD (ProcessState.init now2) with
                    last_activity := now2 } with hs1
        have hpair : waitForPromptAux eW.alive eW.chunks EVAL_TIMEOUT 0 s1
            = (Except.ok out, (waitForPromptAux eW.alive eW.chunks EVAL_TIMEOUT 0 s1).2) :=
          Prod.ext hout rfl
        obtain ⟨j, hcl, hps⟩ := wait_ok_accum eW.alive eW.chunks EVAL_TIMEOUT 0 s1 out _ hpair
        simp only [Prod.mk.injEq, Except.ok.injEq] at h
        refine ⟨s1.output_buffer, j, hps, ?_⟩
        rw [← h.1, hcl]
      · cases h
  · rfl

/-- Witness for `C1`: the scenario instantiates the general extraction
property. -/
theorem C1_eval_result_extraction_witness :
    ∃ buf0 j,
      promptSeen (buf0 ++ joinChunks scenEnvW.chunks 0 j) = true ∧
      "4".data = evalExtract (cleanList (buf0 ++ joinChunks scenEnvW.chunks 0 j)) :=
  C1_eval_result_extraction.1 scenEnvE scenEnvW 5 "aarch64" "2 + 2".data scenReg0
    "4".data _ _ C1_eval_result_extraction.2

/-- `C2` counterexample: the claim says no other caller's operation can
interleave between restart's kill and its boot.  But `restart` closes its
`async with state.lock` block after the kill and `ensure_running` acquires
the lock again for the boot, so the concrete schedule below — in which the
other caller acquires the gate, boots and releases strictly between
restart's kill and restart's boot — respects the gate at every step. -/
theorem C2_interleaving_counterexample :
    lockOk false (weave [false, false, false, true, true, true]
      restartTrace otherTrace) = true ∧
    interleaved (weave [false, false, false, true, true, true]
      restartTrace otherTrace) := by decide

/-- `C2` amended: `restart` performs its kill under one acquisition of the
session's gate and its boot under a second, separate acquisition — not a
single one — so a gate-respecting schedule exists in which another
caller's operation on the same key runs between the kill and the boot. -/
theorem C2_restart_two_acquisitions :
    restartTrace
      = [GAct.acquire, GAct.killAct, GAct.release]
          ++ [GAct.acquire, GAct.bootAct, GAct.release] ∧
    restartTrace ≠ restartTraceSpec ∧
    (lockOk false (weave [false, false, false, true, true, true]
        restartTrace otherTrace) = true ∧
     interleaved (weave [false, false, false, true, true, true]
        restartTrace otherTrace)) := by decide

/-- Environment in which the child exits immediately after launch, before
any prompt is seen. -/
def c3Env : OpEnv :=
  { pid := 7, fd := 4, now := 2, aliveNow := false, alive := fun _ => false }

/-- `C3` counterexample: when the child dies during boot, `boot` does fail
with ProcessDied, but the session does not return to a Stopped state with
both fields `None`: the registry entry keeps the child handle and the
open descriptor. -/
theorem C3_process_died_counterexample :
    ensureRunning c3Env ([] : Registry) "aarch64"
      = (Except.error WErr.processDied,
         [("aarch64",
           { process := some 7, master_fd := some 4, start_time := some 2,
             last_activity := 2, output_buffer := [] })],
         [Effect.spawn 7]) ∧
    ({ process := some 7, master_fd := some 4, start_time := some 2,
       last_activity := 2, output_buffer := [] } : ProcessState).process ≠ none := by
  exact ⟨rfl, by decide⟩

/-- `C3` amended: if the child exits before a ready-prompt is seen, boot
fails with ProcessDied, and the session's child-process and channel
fields are NOT cleared: they keep the handles recorded at launch (the
exited child's pid and the still-open descriptor), together with the
launch timestamp; only the next `_kill_process` or `_start_process`
replaces them. -/
theorem C3_process_died_keeps_handles :
    ∀ e res s' effs, startProcess e = (res, s', effs) →
      res = Except.error WErr.processDied →
      s'.process = some e.pid ∧ s'.master_fd = some e.fd ∧
      s'.start_time = some e.now ∧ effs = [Effect.spawn e.pid] := by
  intro e res s' effs h _hres
  unfold startProcess at h
  simp only [Prod.mk.injEq] at h
  obtain ⟨_h1, h2, h3⟩ := h
  have hf := wait_state_fields e.alive e.chunks BOOT_TIMEOUT 0
    { process := some e.pid, master_fd := some e.fd, start_time := some e.now,
      last_activity := e.now, output_buffer := [] }
  rw [← h2]
  exact ⟨hf.1, hf.2.1, hf.2.2.1, h3.symm⟩

/-- Witness for `C3`: the dead-on-launch environment. -/
theorem C3_process_died_keeps_handles_witness :
    (startProcess c3Env).2.1.process = some 7 ∧
    (startProcess c3Env).2.1.master_fd = some 4 ∧
    (startProcess c3Env).2.1.start_time = some 2 ∧
    (startProcess c3Env).2.2 = [Effect.spawn 7] :=
  C3_process_died_keeps_handles c3Env _ _ _ rfl rfl

/-- `C4`: `_kill_process` is idempotent and never raises (every failure of
signal delivery or descriptor close is suppressed, which the model
reflects by being a total function): a second kill is a no-op, the result
always has no child handle, a kill of a Stopped session changes nothing
and performs no effect, and a kill of a live session clears every
running-state field. -/
theorem C4_kill_idempotent :
    (∀ ps ps2 s, killProcess ps2 (killProcess ps s).1 = ((killProcess ps s).1, [])) ∧
    (∀ ps s, (killProcess ps s).1.process = none) ∧
    (∀ ps s, s.process = none → killProcess ps s = (s, [])) ∧
    (∀ ps s, s.process ≠ none →
      (killProcess ps s).1
        = { process := none, master_fd := none, start_time := none,
            last_activity := s.last_activity, output_buffer := [] }) := by
  have h3 : ∀ (ps : Nat → Bool) (s : ProcessState), s.process = none →
      killProcess ps s = (s, []) := by
    intro ps s hp
    simp [killProcess, hp]
  refine ⟨?_, killProcess_process_none, h3, ?_⟩
  · intro ps ps2 s
    exact h3 ps2 _ (killProcess_process_none ps s)
  · intro ps s hp
    cases hps : s.process with
    | none => exact absurd hps hp
    | some pid => simp [killProcess, hps]

/-- Witness for `C4`: kill of a Stopped session is a no-op; kill of the
live scenario session clears the running-state fields. -/
theorem C4_kill_idempotent_witness :
    killProcess (fun _ => true) (ProcessState.init 0) = (ProcessState.init 0, []) ∧
    (killProcess (fun _ => true) scenState).1
      = { process := none, master_fd := none, start_time := none,
          last_activity := 0, output_buffer := [] } :=
  ⟨C4_kill_idempotent.2.2.1 (fun _ => true) (ProcessState.init 0) (by decide),
   C4_kill_idempotent.2.2.2 (fun _ => true) scenState (by decide)⟩

/-- `C5`: on a reaper tick, a registered session whose child is present
and alive is killed exactly when its idle duration strictly exceeds the
idle threshold — afterwards `is_running` reports false for any poll
answer — and a session whose idle duration is within the threshold is
left completely unchanged. -/
theorem C5_reaper_policy :
    ∀ now aliveOf pollSeq r arch s,
      List.lookup arch r = some s →
      ((s.process ≠ none → aliveOf arch = true →
        now - s.last_activity > IDLE_TIMEOUT →
          List.lookup arch (reaperTick now aliveOf pollSeq r).1
            = some (killProcess pollSeq s).1 ∧
          ∀ pn n2, (isRunning pn n2 (reaperTick now aliveOf pollSeq r).1 arch).1
            = false) ∧
       (now - s.last_activity ≤ IDLE_TIMEOUT →
          List.lookup arch (reaperTick now aliveOf pollSeq r).1 = some s)) := by
  intro now aliveOf pollSeq r arch s hl
  have hmap := lookup_reaperTick now aliveOf pollSeq r arch
  constructor
  · intro hp ha hidle
    have hstep : reaperStep now (aliveOf arch) pollSeq s = killProcess pollSeq s := by
      unfold reaperStep
      rw [if_neg, if_pos hidle]
      push_neg
      exact ⟨hp, by simp [ha]⟩
    have hlk : List.lookup arch (reaperTick now aliveOf pollSeq r).1
        = some (killProcess pollSeq s).1 := by
      rw [hmap, hl]
      simp [hstep]
    refine ⟨hlk, ?_⟩
    intro pn n2
    simp [isRunning, getState, hlk, killProcess_process_none]
  · intro hidle
    have hstep : reaperStep now (aliveOf arch) pollSeq s = (s, []) := by
      unfold reaperStep
      split
      · rfl
      · rw [if_neg (by omega)]
    rw [hmap, hl]
    simp [hstep]

/-- Witness for `C5`: at time 100 the scenario session (last activity 0,
threshold 60) is reaped, and a session at idle duration exactly the
threshold is untouched. -/
theorem C5_reaper_policy_witness :
    List.lookup "aarch64" (reaperTick 100 (fun _ => true) (fun _ => true) scenReg0).1
      = some (killProcess (fun _ => true) scenState).1 ∧
    List.lookup "aarch64" (reaperTick 60 (fun _ => true) (fun _ => true) scenReg0).1
      = some scenState :=
  ⟨((C5_reaper_policy 100 (fun _ => true) (fun _ => true) scenReg0 "aarch64" scenState
      rfl).1 (by decide) rfl (by decide)).1,
   (C5_reaper_policy 60 (fun _ => true) (fun _ => true) scenReg0 "aarch64" scenState
      rfl).2 (by decide)⟩

/-- Boot environment that never produces a prompt while the child stays
alive: the wait exhausts the full boot timeout. -/
def c6Env : OpEnv := { pid := 7, fd := 4, now := 2 }

/-- `C6`: when boot exhausts the boot timeout without a prompt, it fails
with the timeout error, the child-process and channel fields still hold
the launched handles, the only effect is the spawn itself — in particular
no termination signal — and the child passed every liveness check of the
wait, i.e. it is still running. -/
theorem C6_boot_timeout_frame :
    ∀ e res s' effs, startProcess e = (res, s', effs) →
      res = Except.error WErr.timeout →
      s'.process = some e.pid ∧ s'.master_fd = some e.fd ∧
      effs = [Effect.spawn e.pid] ∧
      (∀ p sg, Effect.signalled p sg ∉ effs) ∧
      (∀ j, j < BOOT_TIMEOUT → e.alive j = true) := by
  intro e res s' effs h hres
  subst hres
  unfold startProcess at h
  simp only [Prod.mk.injEq] at h
  obtain ⟨h1, h2, h3⟩ := h
  set s0 : ProcessState :=
    { process := some e.pid, master_fd := some e.fd, start_time := some e.now,
      last_activity := e.now, output_buffer := [] } with hs0
  have hf := wait_state_fields e.alive e.chunks BOOT_TIMEOUT 0 s0
  have hpair : waitForPromptAux e.alive e.chunks BOOT_TIMEOUT 0 s0
      = (Except.error WErr.timeout,
         (waitForPromptAux e.alive e.chunks BOOT_TIMEOUT 0 s0).2) :=
    Prod.ext h1 rfl
  have halive := wait_timeout_alive e.alive e.chunks BOOT_TIMEOUT 0 s0 _ hpair
  refine ⟨?_, ?_, h3.symm, ?_, fun j hj => by simpa using halive j hj⟩
  · rw [← h2]; exact hf.1
  · rw [← h2]; exact hf.2.1
  · rw [← h3]
    intro p sg hmem
    simp at hmem

/-- Witness for `C6`: the silent-child environment times out after the
whole boot window with the child untouched. -/
theorem C6_boot_timeout_frame_witness :
    (startProcess c6Env).2.1.process = some 7 ∧
    (startProcess c6Env).2.1.master_fd = some 4 ∧
    (startProcess c6Env).2.2 = [Effect.spawn 7] :=
  ⟨(C6_boot_timeout_frame c6Env _ _ _ rfl rfl).1,
   (C6_boot_timeout_frame c6Env _ _ _ rfl rfl).2.1,
   (C6_boot_timeout_frame c6Env _ _ _ rfl rfl).2.2.1⟩

/-- `C7` counterexample: `is_running` on an unseen key is not free of
registry mutation — `_get_state` creates a fresh entry for it. -/
theorem C7_query_creates_entry_counterexample :
    (isRunning (fun _ => false) 0 ([] : Registry) "aarch64").2 ≠ ([] : Registry) := by
  decide

/-- `C7` amended: `is_running` and `get_start_time` never fail and never
modify an existing session — for a registered key they return the obvious
answer and leave the registry exactly as it was — but for an unseen key
they create (append) a fresh Stopped registry entry as a side effect of
`_get_state`, returning false / no-timestamp. -/
theorem C7_queries_pure_except_get_or_create :
    (∀ pn now r arch s, List.lookup arch r = some s →
       isRunning pn now r arch
         = ((match s.process with | some pid => pn pid | none => false), r) ∧
       getStartTime now r arch = (s.start_time, r)) ∧
    (∀ pn now r arch, List.lookup arch r = none →
       isRunning pn now r arch = (false, r ++ [(arch, ProcessState.init now)]) ∧
       getStartTime now r arch = (none, r ++ [(arch, ProcessState.init now)])) := by
  constructor
  · intro pn now r arch s hl
    constructor <;> simp [isRunning, getStartTime, getState, hl]
  · intro pn now r arch hl
    constructor <;> simp [isRunning, getStartTime, getState, hl, ProcessState.init]

/-- Witness for `C7`: on the registered scenario key the queries answer
from the stored state and leave the registry untouched. -/
theorem C7_queries_pure_except_get_or_create_witness :
    isRunning (fun _ => true) 9 scenReg0 "aarch64" = (true, scenReg0) ∧
    getStartTime 9 scenReg0 "aarch64" = (some 0, scenReg0) := by
  have h := C7_queries_pure_except_get_or_create.1 (fun _ => true) 9 scenReg0
    "aarch64" scenState rfl
  exact ⟨h.1, h.2⟩

/-- `C8`: every externally supplied key is normalized (lowercased and
stripped) and checked against the fixed allowed set before anything else;
when the normalized key is not in the set, both the `eval` and the
`restart` tool fail with the invalid-key error while the registry is
untouched and no effect — no session creation, no launch, no write, no
signal — has happened. -/
theorem C8_invalid_key_rejected :
    ∀ eE eW pollSeq now2 arch code r,
      normalizeArch arch ∉ VALID_ARCHS →
      serverEval eE eW now2 arch code r
        = (Except.error (SrvErr.invalidKey
            ("Invalid architecture " ++ normalizeArch arch
              ++ ". Valid: aarch64, x86_64")), r, []) ∧
      serverRestart pollSeq eE arch r
        = (Except.error (SrvErr.invalidKey
            ("Invalid architecture " ++ normalizeArch arch
              ++ ". Valid: aarch64, x86_64")), r, []) := by
  intro eE eW pollSeq now2 arch code r h
  constructor <;> simp [serverEval, serverRestart, validateArch, h]

/-- Witness for `C8`: the key `" RISCV "` normalizes to `"riscv"`, which
is rejected by both tools with the registry left empty. -/
theorem C8_invalid_key_rejected_witness :
    serverEval {} {} 0 " RISCV " "1" ([] : Registry)
      = (Except.error (SrvErr.invalidKey
          "Invalid architecture riscv. Valid: aarch64, x86_64"), [], []) ∧
    serverRestart (fun _ => true) {} " RISCV " ([] : Registry)
      = (Except.error (SrvErr.invalidKey
          "Invalid architecture riscv. Valid: aarch64, x86_64"), [], []) :=
  C8_invalid_key_rejected {} {} (fun _ => true) 0 " RISCV " "1" [] (by decide)

/-- `C10`: when the wait for the prompt times out, the pending-output
buffer retains everything accumulated — the initial buffer plus every
chunk read during the window — and the child handle and channel are
unchanged; the buffer is cleared exactly on a successful prompt match;
and no evaluation ever emits a termination signal, so the child is left
running for a later evaluate to consume the stale output. -/
theorem C10_eval_timeout_retains :
    (∀ alive chunks fuel i s s',
       waitForPromptAux alive chunks fuel i s = (Except.error WErr.timeout, s') →
       s'.output_buffer = s.output_buffer ++ joinChunks chunks i fuel ∧
       s'.process = s.process ∧ s'.master_fd = s.master_fd) ∧
    (∀ alive chunks fuel i s out s',
       waitForPromptAux alive chunks fuel i s = (Except.ok out, s') →
       s'.output_buffer = []) ∧
    (∀ eE eW now2 arch code r p sg,
       Effect.signalled p sg ∉ (evalOp eE eW now2 arch code r).2.2) := by
  refine ⟨?_, wait_ok_clears, ?_⟩
  · intro alive chunks fuel i s s' h
    have hf := wait_state_fields alive chunks fuel i s
    have hb := wait_timeout_buffer alive chunks fuel i s s' h
    have hs' : (waitForPromptAux alive chunks fuel i s).2 = s' := by rw [h]
    rw [hs'] at hf
    exact ⟨hb, hf.1, hf.2.1⟩
  · intro eE eW now2 arch code r p sg
    have hens : ∀ eff, eff ∈ (ensureRunning eE r arch).2.2 →
        eff = Effect.spawn eE.pid := by
      intro eff hm
      simp only [ensureRunning] at hm
      split at hm
      · simp at hm
      · split at hm <;> simpa [startProcess] using hm
    intro hmem
    unfold evalOp at hmem
    split at hmem
    · rename_i er r1 effs1 heq
      have h22 : (ensureRunning eE r arch).2.2 = effs1 := by rw [heq]
      exact Effect.noConfusion (hens _ (by rw [h22]; exact hmem))
    · rename_i r1 effs1 heq
      have h22 : (ensureRunning eE r arch).2.2 = effs1 := by rw [heq]
      simp only at hmem
      split at hmem <;>
      · rcases List.mem_append.mp hmem with hmem2 | hmem2
        · exact Effect.noConfusion (hens _ (by rw [h22]; exact hmem2))
        · simp at hmem2

/-- Witness for `C10`: a two-tick wait with no data and no prompt times
out with the buffer (vacuously) retained and the handles intact. -/
theorem C10_eval_timeout_retains_witness :
    (waitForPromptAux (fun _ => true) (fun _ => none) 2 0 scenState).2.output_buffer
      = scenState.output_buffer ++ joinChunks (fun _ => none) 0 2 :=
  (C10_eval_timeout_retains.1 (fun _ => true) (fun _ => none) 2 0 scenState
    (waitForPromptAux (fun _ => true) (fun _ => none) 2 0 scenState).2 rfl).1

end LonaRepl
